import Mathlib

/-
Verification development for the tokscale repository.

Shallow embedding of the pricing-resolution engine
(src/packages/core/src/pricing/lookup.rs, aliases.rs, cache.rs,
litellm.rs, openrouter.rs), the aggregation engine
(src/core/src/aggregator.rs) and the monthly report
(src/packages/core/src/lib.rs).

Modelling conventions:
- Rust String is Lean String; all identifiers handled by the program are
  ASCII, so Rust byte indices coincide with character indices and Rust
  Unicode to_lowercase / is_alphanumeric coincide with the ASCII
  String.toLower / Char.isAlphanum.
- Rust f64 price values are modelled by FVal (a rational plus the
  non-finite values); real-number arithmetic on costs is modelled by Rat,
  abstracting from IEEE rounding.
- Rust HashMap string maps are modelled either by association lists (with
  the insertion-overwrite discipline spelled out at each definition) or,
  for the aggregation accumulators, by functions to Option.
-/

namespace Tokscale

/-! ## String utilities

All string manipulation is routed through structurally recursive
functions on `List Char`, so every definition reduces inside the kernel.
-/

/-- Rust `str::to_lowercase` (ASCII). -/
def toLowerStr (s : String) : String :=
  String.mk (s.toList.map Char.toLower)

/-- String length; for the ASCII strings handled here this matches Rust's
byte length `str::len`. -/
def strLen (s : String) : Nat :=
  s.toList.length

/-- Rust `str::starts_with`. -/
def startsWithStr (s p : String) : Bool :=
  p.toList.isPrefixOf s.toList

/-- Rust `str::ends_with`. -/
def endsWithStr (s suf : String) : Bool :=
  suf.toList.isSuffixOf s.toList

/-- Drop the last `n` characters; models slicing a suffix off. -/
def dropRightStr (s : String) (n : Nat) : String :=
  String.mk (s.toList.take (s.toList.length - n))

/-- Take the first `n` characters; models `&s[..n]` for ASCII strings. -/
def takeStr (s : String) (n : Nat) : String :=
  String.mk (s.toList.take n)

/-- First index (if any) at which `needle` occurs in `hay`; models Rust
str::find for ASCII strings (byte index = char index). -/
def findSub (hay needle : List Char) : Option Nat :=
  match hay with
  | [] => if needle.isPrefixOf ([] : List Char) then some 0 else none
  | c :: rest =>
    if needle.isPrefixOf (c :: rest) then some 0
    else (findSub rest needle).map (· + 1)

/-- Rust str::contains. -/
def containsSub (s sub : String) : Bool :=
  (findSub s.toList sub.toList).isSome

/-- Last '/'-separated segment of a string; models
`s.split('/').last().unwrap()` (the whole string when no '/' occurs). -/
def lastSegAfterSlash (s : String) : String :=
  String.mk ((s.toList.reverse.takeWhile (fun c => c ≠ '/')).reverse)

/-- Stable insertion (descending by length) used by sortByLenDesc. -/
def insertByLenDesc (x : String) : List String → List String
  | [] => [x]
  | y :: ys => if y.length ≤ x.length then x :: y :: ys else y :: insertByLenDesc x ys

/-- Stable sort of keys, longest first; models
`keys.sort_by(|a, b| b.len().cmp(&a.len()))` (Rust sort_by is stable). -/
def sortByLenDesc : List String → List String
  | [] => []
  | x :: xs => insertByLenDesc x (sortByLenDesc xs)

/-! ## Pricing data model (litellm.rs) -/

/-- An f64 value: a finite rational or one of the non-finite values. -/
inductive FVal where
  | fin (q : ℚ)
  | nan
  | inf
  | ninf
deriving DecidableEq, Repr

/-- `ModelPricing` from litellm.rs (field order as in the source). -/
structure ModelPricing where
  input_cost_per_token : Option FVal
  output_cost_per_token : Option FVal
  cache_creation_input_token_cost : Option FVal
  cache_read_input_token_cost : Option FVal
deriving DecidableEq, Repr

/-- Rust `ModelPricing::default()` (all fields None). -/
def defaultPricing : ModelPricing := ⟨none, none, none, none⟩

/-- A catalog: model-key to pricing map, modelled as an association list
with unique keys (the iteration order of the Rust HashMap). -/
abbrev Catalog := List (String × ModelPricing)

/-- `dataset.get(key)`: first entry with the given key. -/
def getVal (m : Catalog) (k : String) : Option ModelPricing :=
  (m.find? (fun e => e.1 == k)).map (·.2)

/-! ## Alias table (aliases.rs) -/

/-- `MODEL_ALIASES` from aliases.rs. -/
def modelAliases : List (String × String) :=
  [("big-pickle", "glm-4.7"), ("big pickle", "glm-4.7"), ("bigpickle", "glm-4.7")]

/-- `resolve_alias` from aliases.rs. -/
def resolveAlias (modelId : String) : Option String :=
  (modelAliases.find? (fun e => e.1 == toLowerStr modelId)).map (·.2)

/-! ## Constant tables (lookup.rs) -/

def providerPrefixList : List String :=
  ["openai/", "anthropic/", "google/", "meta-llama/", "mistralai/",
   "deepseek/", "qwen/", "cohere/", "perplexity/", "x-ai/"]

def originalProviderList : List String :=
  ["x-ai/", "xai/", "anthropic/", "openai/", "google/", "meta-llama/",
   "mistralai/", "deepseek/", "z-ai/", "qwen/", "cohere/", "perplexity/", "moonshotai/"]

def resellerProviderList : List String :=
  ["azure/", "azure_ai/", "bedrock/", "vertex_ai/",
   "together/", "together_ai/", "fireworks_ai/", "groq/", "openrouter/"]

def fuzzyBlocklist : List String := ["auto", "mini", "chat", "base"]

def minFuzzyMatchLen : Nat := 5

def tierSuffixList : List String :=
  ["-xhigh", "-low", "-high", "-medium", "-free", ":low", ":high", ":medium", ":free"]

def fallbackSuffixList : List String := ["-codex", "-codex-max"]

/-! ## Helper functions (lookup.rs free functions) -/

/-- `extract_model_family` from lookup.rs. -/
def extractModelFamily (modelId : String) : String :=
  let lower := toLowerStr modelId
  if containsSub lower "gpt-5" then "gpt-5"
  else if containsSub lower "gpt-4.1" then "gpt-4.1"
  else if containsSub lower "gpt-4o" then "gpt-4o"
  else if containsSub lower "gpt-4" then "gpt-4"
  else if containsSub lower "o3" then "o3"
  else if containsSub lower "o4" then "o4"
  else if containsSub lower "opus" then "opus"
  else if containsSub lower "sonnet" then "sonnet"
  else if containsSub lower "haiku" then "haiku"
  else if containsSub lower "claude" then "claude"
  else if containsSub lower "gemini-3" then "gemini-3"
  else if containsSub lower "gemini-2.5" then "gemini-2.5"
  else if containsSub lower "gemini-2" then "gemini-2"
  else if containsSub lower "gemini" then "gemini"
  else if containsSub lower "llama" then "llama"
  else if containsSub lower "mistral" then "mistral"
  else if containsSub lower "deepseek" then "deepseek"
  else if containsSub lower "qwen" then "qwen"
  else String.mk (lower.toList.takeWhile (fun c => c ≠ '-' && c ≠ '_' && c ≠ '.'))

/-- `family_matches` from lookup.rs. -/
def familyMatches (key family : String) : Bool :=
  if family.toList.isEmpty then true else containsSub key family

/-- `contains_model_id` from lookup.rs: the first occurrence of the id in
the key must have non-alphanumeric (or string-edge) neighbours. -/
def containsModelId (key modelId : String) : Bool :=
  let k := key.toList
  let m := modelId.toList
  match findSub k m with
  | none => false
  | some pos =>
    let beforeOk := pos == 0 || !((k.getD (pos - 1) ' ').isAlphanum)
    let afterPos := pos + m.length
    let afterOk := afterPos == k.length || !((k.getD afterPos ' ').isAlphanum)
    beforeOk && afterOk

/-- `normalize_model_name` from lookup.rs: three independent `if` blocks
with early returns — an id matching a block's outer guard but none of its
inner version patterns falls through to the next block (so e.g.
"opus-3.5-sonnet" reaches the sonnet block and normalizes to
"claude-3.5-sonnet"). -/
def normalizeModelName (modelId : String) : Option String :=
  let lower := toLowerStr modelId
  let opusResult : Option String :=
    if containsSub lower "opus" then
      if containsSub lower "4.5" || containsSub lower "4-5" then some "claude-opus-4-5"
      else if containsSub lower "4" then some "claude-opus-4"
      else none
    else none
  match opusResult with
  | some result => some result
  | none =>
  let sonnetResult : Option String :=
    if containsSub lower "sonnet" then
      if containsSub lower "4.5" || containsSub lower "4-5" then some "claude-sonnet-4-5"
      else if containsSub lower "4" && !(containsSub lower "3.") && !(containsSub lower "3-") then
        some "claude-sonnet-4"
      else if containsSub lower "3.7" || containsSub lower "3-7" then some "claude-3-7-sonnet"
      else if containsSub lower "3.5" || containsSub lower "3-5" then some "claude-3.5-sonnet"
      else none
    else none
  match sonnetResult with
  | some result => some result
  | none =>
  if containsSub lower "haiku" then
    if containsSub lower "4.5" || containsSub lower "4-5" then some "claude-haiku-4-5"
    else if containsSub lower "3.5" || containsSub lower "3-5" then some "claude-3.5-haiku"
    else none
  else none

/-- Inner loop of `normalize_version_separator`: walks the char list with
the previous two characters as context; returns the rewritten list and
whether anything changed. -/
def nvsAux (p2 p1 : Option Char) : List Char → List Char × Bool
  | [] => ([], false)
  | c :: rest =>
    let tailRes := nvsAux p1 (some c) rest
    if c = '-' && (p1.map Char.isDigit).getD false
        && ((rest.head?.map Char.isDigit).getD false) then
      let isMultiDigitBefore := (p2.map Char.isDigit).getD false
      let isMultiDigitAfter := (((rest.drop 1).head?.map Char.isDigit).getD false)
      if isMultiDigitBefore || isMultiDigitAfter then
        (c :: tailRes.1, tailRes.2)
      else
        ('.' :: tailRes.1, true)
    else (c :: tailRes.1, tailRes.2)

/-- `normalize_version_separator` from lookup.rs: a hyphen between two
single digits becomes a dot, unless a neighbouring digit group is
multi-digit (date heuristic). -/
def normalizeVersionSeparator (modelId : String) : Option String :=
  let r := nvsAux none none modelId.toList
  if r.2 then some (String.mk r.1) else none

/-- `is_fuzzy_eligible` from lookup.rs. -/
def isFuzzyEligible (modelId : String) : Bool :=
  if strLen modelId < minFuzzyMatchLen then false
  else !(fuzzyBlocklist.any (fun blocked => modelId == blocked))

/-- `strip_tier_suffix` from lookup.rs: first matching tier suffix, in
table order, is removed. -/
def stripTierSuffix (modelId : String) : Option String :=
  tierSuffixList.findSome? (fun suf =>
    if endsWithStr modelId suf then some (dropRightStr modelId (strLen suf)) else none)

/-- `strip_fallback_suffix` from lookup.rs: the suffix table re-sorted
longest-first, then the first matching suffix is removed. -/
def stripFallbackSuffix (modelId : String) : Option String :=
  (sortByLenDesc fallbackSuffixList).findSome? (fun suf =>
    if endsWithStr modelId suf then some (dropRightStr modelId (strLen suf)) else none)

/-- `is_original_provider` from lookup.rs. -/
def isOriginalProvider (key : String) : Bool :=
  originalProviderList.any (fun p => startsWithStr (toLowerStr key) p)

/-- `is_reseller_provider` from lookup.rs. -/
def isResellerProvider (key : String) : Bool :=
  resellerProviderList.any (fun p => startsWithStr (toLowerStr key) p)

/-! ## The lookup engine (lookup.rs, impl PricingLookup) -/

/-- `LookupResult` from lookup.rs. -/
structure LookupResult where
  pricing : ModelPricing
  source : String
  matched_key : String
deriving DecidableEq, Repr

/-- The two catalogs handed to `PricingLookup::new`, in the iteration
order of the underlying HashMaps (arbitrary but fixed). The derived
indices of the Rust struct are recomputed by the functions below. -/
structure PricingLookup where
  litellm : Catalog
  openrouter : Catalog

/-- `litellm_keys`: LiteLLM keys sorted longest-first. -/
def litellmKeys (pl : PricingLookup) : List String :=
  sortByLenDesc (pl.litellm.map (·.1))

/-- `openrouter_keys`: OpenRouter keys sorted longest-first. -/
def openrouterKeys (pl : PricingLookup) : List String :=
  sortByLenDesc (pl.openrouter.map (·.1))

/-- Lookup in a lowercase-key index built by inserting lower(key) -> key
for each key in order (later inserts overwrite): the winner is the last
key in the list whose lowercase form equals the query. -/
def lookupLowerIdx (keys : List String) (q : String) : Option String :=
  keys.reverse.find? (fun k => toLowerStr k == q)

/-- Lookup in the `openrouter_model_part` index: built over the keys in
order, inserting model-part -> key only when the part differs from the
whole lowercase key; later inserts overwrite. -/
def lookupModelPartIdx (keys : List String) (q : String) : Option String :=
  keys.reverse.find? (fun k =>
    let lower := toLowerStr k
    let modelPart := lastSegAfterSlash lower
    modelPart != lower && modelPart == q)

/-- `exact_match_litellm`. -/
def exactMatchLitellm (pl : PricingLookup) (modelId : String) : Option LookupResult :=
  match lookupLowerIdx (litellmKeys pl) modelId with
  | some key => some ⟨(getVal pl.litellm key).getD defaultPricing, "LiteLLM", key⟩
  | none => none

/-- `exact_match_openrouter`: full-key index first, then the bare
model-name index. -/
def exactMatchOpenrouter (pl : PricingLookup) (modelId : String) : Option LookupResult :=
  match lookupLowerIdx (openrouterKeys pl) modelId with
  | some key => some ⟨(getVal pl.openrouter key).getD defaultPricing, "OpenRouter", key⟩
  | none =>
    match lookupModelPartIdx (openrouterKeys pl) modelId with
    | some key => some ⟨(getVal pl.openrouter key).getD defaultPricing, "OpenRouter", key⟩
    | none => none

/-- `prefix_match_litellm`: try each known provider name glued in front
of the id. -/
def providerKeyMatchLitellm (pl : PricingLookup) (modelId : String) : Option LookupResult :=
  providerPrefixList.findSome? (fun p =>
    match lookupLowerIdx (litellmKeys pl) (p ++ modelId) with
    | some key => some ⟨(getVal pl.litellm key).getD defaultPricing, "LiteLLM", key⟩
    | none => none)

/-- `prefix_match_openrouter` (full-key index only). -/
def providerKeyMatchOpenrouter (pl : PricingLookup) (modelId : String) : Option LookupResult :=
  providerPrefixList.findSome? (fun p =>
    match lookupLowerIdx (openrouterKeys pl) (p ++ modelId) with
    | some key => some ⟨(getVal pl.openrouter key).getD defaultPricing, "OpenRouter", key⟩
    | none => none)

/-- `select_best_match`: prefer an original-provider key, else a
non-reseller key, else the first candidate. (The keys handed in always
occur in the dataset, so the `defaultPricing` fallback mirroring Rust's
`.unwrap()` is dead code.) -/
def selectBestMatch (cands : List String) (dataset : Catalog) (source : String) :
    Option LookupResult :=
  match cands with
  | [] => none
  | first :: _ =>
    match cands.find? (fun k => isOriginalProvider k) with
    | some key => some ⟨(getVal dataset key).getD defaultPricing, source, key⟩
    | none =>
      match cands.find? (fun k => !(isResellerProvider k)) with
      | some key => some ⟨(getVal dataset key).getD defaultPricing, source, key⟩
      | none => some ⟨(getVal dataset first).getD defaultPricing, source, first⟩

/-- `fuzzy_match_litellm`: family-scoped scan first, then unscoped. -/
def fuzzyMatchLitellm (pl : PricingLookup) (modelId : String) : Option LookupResult :=
  let family := extractModelFamily modelId
  let familyMatchesList := (litellmKeys pl).filter (fun key =>
    let lowerKey := toLowerStr key
    familyMatches lowerKey family && containsModelId lowerKey modelId)
  match selectBestMatch familyMatchesList pl.litellm "LiteLLM" with
  | some result => some result
  | none =>
    let allMatches := (litellmKeys pl).filter (fun key =>
      containsModelId (toLowerStr key) modelId)
    selectBestMatch allMatches pl.litellm "LiteLLM"

/-- `fuzzy_match_openrouter`: like the LiteLLM version, but matching
against the bare model part of each key. -/
def fuzzyMatchOpenrouter (pl : PricingLookup) (modelId : String) : Option LookupResult :=
  let family := extractModelFamily modelId
  let familyMatchesList := (openrouterKeys pl).filter (fun key =>
    let modelPart := lastSegAfterSlash (toLowerStr key)
    familyMatches modelPart family && containsModelId modelPart modelId)
  match selectBestMatch familyMatchesList pl.openrouter "OpenRouter" with
  | some result => some result
  | none =>
    let allMatches := (openrouterKeys pl).filter (fun key =>
      containsModelId (lastSegAfterSlash (toLowerStr key)) modelId)
    selectBestMatch allMatches pl.openrouter "OpenRouter"

/-- The fuzzy tie-break of `lookup_auto` (lines 212-236 of lookup.rs):
original provider beats non-original, then non-reseller beats reseller,
then the LiteLLM candidate wins. -/
def preferProviderResult (litellmResult openrouterResult : Option LookupResult) :
    Option LookupResult :=
  match litellmResult, openrouterResult with
  | some l, some o =>
    let lIsOriginal := isOriginalProvider l.matched_key
    let oIsOriginal := isOriginalProvider o.matched_key
    let lIsReseller := isResellerProvider l.matched_key
    let oIsReseller := isResellerProvider o.matched_key
    if oIsOriginal && !lIsOriginal then some o
    else if lIsOriginal && !oIsOriginal then some l
    else if !lIsReseller && oIsReseller then some l
    else if !oIsReseller && lIsReseller then some o
    else some l
  | some l, none => some l
  | none, some o => some o
  | none, none => none

/-- `lookup_auto`. -/
def lookupAuto (pl : PricingLookup) (modelId : String) : Option LookupResult :=
  match exactMatchLitellm pl modelId with
  | some result => some result
  | none =>
  match exactMatchOpenrouter pl modelId with
  | some result => some result
  | none =>
  match (normalizeVersionSeparator modelId).bind (fun vn =>
      match exactMatchLitellm pl vn with
      | some r => some r
      | none => exactMatchOpenrouter pl vn) with
  | some result => some result
  | none =>
  match (normalizeModelName modelId).bind (fun nm =>
      match exactMatchLitellm pl nm with
      | some r => some r
      | none => exactMatchOpenrouter pl nm) with
  | some result => some result
  | none =>
  match providerKeyMatchLitellm pl modelId with
  | some result => some result
  | none =>
  match providerKeyMatchOpenrouter pl modelId with
  | some result => some result
  | none =>
  match (normalizeVersionSeparator modelId).bind (fun vn =>
      match providerKeyMatchLitellm pl vn with
      | some r => some r
      | none => providerKeyMatchOpenrouter pl vn) with
  | some result => some result
  | none =>
  if !(isFuzzyEligible modelId) then none
  else preferProviderResult (fuzzyMatchLitellm pl modelId) (fuzzyMatchOpenrouter pl modelId)

/-- `lookup_litellm_only`. -/
def lookupLitellmOnly (pl : PricingLookup) (modelId : String) : Option LookupResult :=
  match exactMatchLitellm pl modelId with
  | some result => some result
  | none =>
  match (normalizeVersionSeparator modelId).bind (fun vn => exactMatchLitellm pl vn) with
  | some result => some result
  | none =>
  match (normalizeModelName modelId).bind (fun nm => exactMatchLitellm pl nm) with
  | some result => some result
  | none =>
  match providerKeyMatchLitellm pl modelId with
  | some result => some result
  | none =>
  match (normalizeVersionSeparator modelId).bind (fun vn => providerKeyMatchLitellm pl vn) with
  | some result => some result
  | none =>
  if isFuzzyEligible modelId then fuzzyMatchLitellm pl modelId else none

/-- `lookup_openrouter_only`. -/
def lookupOpenrouterOnly (pl : PricingLookup) (modelId : String) : Option LookupResult :=
  match exactMatchOpenrouter pl modelId with
  | some result => some result
  | none =>
  match (normalizeVersionSeparator modelId).bind (fun vn => exactMatchOpenrouter pl vn) with
  | some result => some result
  | none =>
  match (normalizeModelName modelId).bind (fun nm => exactMatchOpenrouter pl nm) with
  | some result => some result
  | none =>
  match providerKeyMatchOpenrouter pl modelId with
  | some result => some result
  | none =>
  match (normalizeVersionSeparator modelId).bind (fun vn => providerKeyMatchOpenrouter pl vn) with
  | some result => some result
  | none =>
  if isFuzzyEligible modelId then fuzzyMatchOpenrouter pl modelId else none

/-- The per-id probe of `lookup_with_source` under a source constraint. -/
def doLookup (pl : PricingLookup) (forceSource : Option String) (id : String) :
    Option LookupResult :=
  match forceSource with
  | some "litellm" => lookupLitellmOnly pl id
  | some "openrouter" => lookupOpenrouterOnly pl id
  | _ => lookupAuto pl id

/-- The alias-canonicalized, lowercased form of an id (the `canonical`
and `lower` locals at the top of `lookup_with_source`). -/
def lowerCanon (modelId : String) : String :=
  toLowerStr ((resolveAlias modelId).getD modelId)

/-- `lookup_with_source`: alias, lowercase, direct probe, then the two
suffix-stripping orders (tier then fallback, fallback then tier). -/
def lookupWithSource (pl : PricingLookup) (modelId : String) (forceSource : Option String) :
    Option LookupResult :=
  let lower := lowerCanon modelId
  match doLookup pl forceSource lower with
  | some result => some result
  | none =>
  match
    (match stripTierSuffix lower with
     | none => none
     | some tierStripped =>
       match doLookup pl forceSource tierStripped with
       | some result => some result
       | none =>
         match stripFallbackSuffix tierStripped with
         | none => none
         | some fallbackStripped => doLookup pl forceSource fallbackStripped) with
  | some result => some result
  | none =>
  match stripFallbackSuffix lower with
  | none => none
  | some fallbackStripped =>
    match doLookup pl forceSource fallbackStripped with
    | some result => some result
    | none =>
      match stripTierSuffix fallbackStripped with
      | none => none
      | some tierStripped => doLookup pl forceSource tierStripped

/-- The computation memoized by `lookup` (proved memoization-transparent
below): `lookup_with_source(id, None)`. -/
def lookupPure (pl : PricingLookup) (modelId : String) : Option LookupResult :=
  lookupWithSource pl modelId none

/-! ## Memoized lookup (lookup.rs, `lookup` and the `lookup_cache`) -/

/-- `CachedResult` from lookup.rs. -/
structure CachedResult where
  pricing : ModelPricing
  source : String
  matched_key : String
deriving DecidableEq, Repr

def toCachedResult (r : LookupResult) : CachedResult :=
  ⟨r.pricing, r.source, r.matched_key⟩

def ofCachedResult (c : CachedResult) : LookupResult :=
  ⟨c.pricing, c.source, c.matched_key⟩

/-- The `lookup_cache` map: memoizes per original input, including
negative results. -/
abbrev LookupCache := List (String × Option CachedResult)

def cacheGet (cache : LookupCache) (modelId : String) : Option (Option CachedResult) :=
  (cache.find? (fun e => e.1 == modelId)).map (·.2)

/-- `lookup`: return the memoized result when present, else compute
`lookup_with_source(id, None)` and record it. -/
def lookupMemo (pl : PricingLookup) (cache : LookupCache) (modelId : String) :
    Option LookupResult × LookupCache :=
  match cacheGet cache modelId with
  | some cached => (cached.map ofCachedResult, cache)
  | none =>
    let result := lookupWithSource pl modelId none
    (result, (modelId, result.map toCachedResult) :: cache)

/-- A cache state is consistent when every memoized entry equals the
uncached computation for its key. -/
def cacheConsistent (pl : PricingLookup) (cache : LookupCache) : Prop :=
  ∀ e ∈ cache, e.2 = (lookupWithSource pl e.1 none).map toCachedResult

/-! ## Cost calculation (lookup.rs, `calculate_cost`) -/

/-- The `safe_price` closure: missing, non-finite or negative price
components count as 0. -/
def safePrice (opt : Option FVal) : ℚ :=
  match opt with
  | some (FVal.fin v) => if 0 ≤ v then v else 0
  | _ => 0

/-- `calculate_cost`: reasoning tokens are billed at the output rate;
an unresolved model costs 0. -/
def calculateCost (pl : PricingLookup) (modelId : String)
    (input output cacheRead cacheWrite reasoning : Int) : ℚ :=
  match lookupPure pl modelId with
  | none => 0
  | some result =>
    let p := result.pricing
    let inputCost := (input : ℚ) * safePrice p.input_cost_per_token
    let outputCost := ((output + reasoning : Int) : ℚ) * safePrice p.output_cost_per_token
    let cacheReadCost := (cacheRead : ℚ) * safePrice p.cache_read_input_token_cost
    let cacheWriteCost := (cacheWrite : ℚ) * safePrice p.cache_creation_input_token_cost
    inputCost + outputCost + cacheReadCost + cacheWriteCost

/-! ## Cache store (cache.rs) -/

/-- `CachedData` from cache.rs: the on-disk `{timestamp, data}` envelope
(timestamp in whole seconds, a u64). -/
structure CachedData (α : Type) where
  timestamp : Nat
  data : α

/-- `CACHE_TTL_SECS`. -/
def cacheTtlSecs : Nat := 3600

/-- `load_cache`: `readParse` is the combined outcome of reading and
JSON-parsing the cache file (`none` on a missing file or a parse
failure). Nat subtraction is truncated, matching `u64::saturating_sub`. -/
def loadCache {α : Type} (readParse : Option (CachedData α)) (now : Nat) : Option α :=
  match readParse with
  | none => none
  | some cached =>
    if cached.timestamp > now || now - cached.timestamp > cacheTtlSecs then none
    else some cached.data

/-! ## Pricing fetchers (litellm.rs, openrouter.rs)

The network layer is abstracted: a fetch is modelled as a function of the
parse outcome of the HTTP bodies it receives (after the retry loop has
obtained an HTTP-success response). `none` stands for a body the JSON
deserializer rejects.
-/

/-- litellm.rs lines 57-66: on an HTTP-success response, a body that
parses yields `Ok(data)` (after a best-effort cache save); a body the
deserializer rejects returns the parse error. -/
def litellmHandleBody (body : Option Catalog) : Except String Catalog :=
  match body with
  | some data => Except.ok data
  | none => Except.error "LiteLLM JSON parse failed"

/-- `get_author_provider_name` from openrouter.rs: maps the id's first
'/'-separated segment to the author provider display name. -/
def getAuthorProviderName (modelId : String) : Option String :=
  let p := toLowerStr (String.mk (modelId.toList.takeWhile (fun c => c ≠ '/')))
  if p == "z-ai" then some "Z.AI"
  else if p == "x-ai" then some "xAI"
  else if p == "anthropic" then some "Anthropic"
  else if p == "openai" then some "OpenAI"
  else if p == "google" then some "Google"
  else if p == "meta-llama" then some "Meta"
  else if p == "mistralai" then some "Mistral"
  else if p == "deepseek" then some "DeepSeek"
  else if p == "qwen" then some "Alibaba"
  else if p == "cohere" then some "Cohere"
  else if p == "perplexity" then some "Perplexity"
  else if p == "moonshotai" then some "Moonshot AI"
  else none

/-- `parse_price` from openrouter.rs applied to the parse outcome of a
decimal price string: accepted only when finite and non-negative. -/
def parsePrice (parsed : Option FVal) : Option ℚ :=
  match parsed with
  | some (FVal.fin v) => if 0 ≤ v then some v else none
  | _ => none

/-- openrouter.rs `fetch_all_models`, with the network abstracted:
`listBody` is the parse outcome of the top-level `/models` response
(`none` when the deserializer rejects it, in which case the code breaks
out with an empty id list) and `detail` is the per-model outcome of
`fetch_author_pricing` (`none` when that model's request, parse, author
filter or price validation fails). Note the return type: this fetch has
no error channel at all. -/
def openrouterFetchAllModels (listBody : Option (List String))
    (detail : String → Option ModelPricing) : Catalog :=
  let modelIds := match listBody with
    | some ids => ids
    | none => []
  if modelIds.isEmpty then []
  else
    let modelsWithAuthors := modelIds.filter (fun id => (getAuthorProviderName id).isSome)
    modelsWithAuthors.filterMap (fun id => (detail id).map (fun pricing => (id, pricing)))

/-- mod.rs `PricingService::fetch_inner`: joins both fetches; only the
LiteLLM error is propagated (`?`), the OpenRouter catalog is used as-is. -/
def serviceFetchOutcome (litellmBody : Option Catalog)
    (orListBody : Option (List String)) (detail : String → Option ModelPricing) :
    Except String (Catalog × Catalog) :=
  match litellmHandleBody litellmBody with
  | Except.error e => Except.error e
  | Except.ok litellmData =>
    Except.ok (litellmData, openrouterFetchAllModels orListBody detail)

/-! ## Aggregation engine (src/core/src/aggregator.rs)

`HashMap<String, DayAccumulator>` and the per-day
`HashMap<String, SourceContribution>` are modelled as functions to
`Option`, which makes the key-by-key merge pointwise.
-/

/-- `TokenBreakdown` (src/core/src/lib.rs). -/
@[ext]
structure TokenBreakdown where
  input : Int
  output : Int
  cache_read : Int
  cache_write : Int
  reasoning : Int
deriving DecidableEq, Repr

def zeroBreakdown : TokenBreakdown := ⟨0, 0, 0, 0, 0⟩

/-- Field-wise sum of token breakdowns. -/
def addBreakdown (a b : TokenBreakdown) : TokenBreakdown :=
  ⟨a.input + b.input, a.output + b.output, a.cache_read + b.cache_read,
   a.cache_write + b.cache_write, a.reasoning + b.reasoning⟩

/-- `DailyTotals` (src/core/src/lib.rs). -/
@[ext]
structure DailyTotals where
  tokens : Int
  cost : ℚ
  messages : Int
deriving DecidableEq, Repr

/-- `SourceContribution` (src/core/src/lib.rs). -/
@[ext]
structure SourceContribution where
  source : String
  model_id : String
  provider_id : String
  tokens : TokenBreakdown
  cost : ℚ
  messages : Int
deriving DecidableEq, Repr

/-- `UnifiedMessage` (src/core/src/sessions/mod.rs). -/
structure UnifiedMessage where
  source : String
  model_id : String
  provider_id : String
  timestamp : Int
  date : String
  tokens : TokenBreakdown
  cost : ℚ
deriving DecidableEq, Repr

/-- `DayAccumulator` (aggregator.rs). -/
@[ext]
structure DayAccumulator where
  totals : DailyTotals
  token_breakdown : TokenBreakdown
  sources : String → Option SourceContribution

def emptyDayAccumulator : DayAccumulator :=
  ⟨⟨0, 0, 0⟩, zeroBreakdown, fun _ => none⟩

/-- The `"{source}:{model_id}"` sub-map key. -/
def sourceKey (msg : UnifiedMessage) : String :=
  msg.source ++ ":" ++ msg.model_id

/-- The fresh entry `or_insert_with` creates for a message. -/
def freshContribution (msg : UnifiedMessage) : SourceContribution :=
  ⟨msg.source, msg.model_id, msg.provider_id, zeroBreakdown, 0, 0⟩

/-- `DayAccumulator::add_message`. -/
def DayAccumulator.addMessage (acc : DayAccumulator) (msg : UnifiedMessage) : DayAccumulator :=
  let totalTokens := msg.tokens.input + msg.tokens.output + msg.tokens.cache_read
    + msg.tokens.cache_write + msg.tokens.reasoning
  let key := sourceKey msg
  let entry := (acc.sources key).getD (freshContribution msg)
  { totals := ⟨acc.totals.tokens + totalTokens, acc.totals.cost + msg.cost,
      acc.totals.messages + 1⟩
    token_breakdown := addBreakdown acc.token_breakdown msg.tokens
    sources := fun k =>
      if k = key then
        some { entry with
          tokens := addBreakdown entry.tokens msg.tokens
          cost := entry.cost + msg.cost
          messages := entry.messages + 1 }
      else acc.sources k }

/-- The `+=` block of `DayAccumulator::merge` applied to one sub-map
entry: metadata comes from the existing (left) entry, numbers sum. -/
def bumpContribution (entry other : SourceContribution) : SourceContribution :=
  { entry with
    tokens := addBreakdown entry.tokens other.tokens
    cost := entry.cost + other.cost
    messages := entry.messages + other.messages }

/-- `DayAccumulator::merge`: numeric fields sum; for each key of `other`,
the existing entry (or a fresh one built from `other`'s metadata) is
bumped by `other`'s numbers. -/
def DayAccumulator.merge (a other : DayAccumulator) : DayAccumulator :=
  { totals := ⟨a.totals.tokens + other.totals.tokens, a.totals.cost + other.totals.cost,
      a.totals.messages + other.totals.messages⟩
    token_breakdown := addBreakdown a.token_breakdown other.token_breakdown
    sources := fun k =>
      match other.sources k with
      | none => a.sources k
      | some os =>
        match a.sources k with
        | some entry => some (bumpContribution entry os)
        | none => some (bumpContribution ⟨os.source, os.model_id, os.provider_id,
            zeroBreakdown, 0, 0⟩ os) }

/-- The daily map: `date -> DayAccumulator`. -/
abbrev DailyMap := String → Option DayAccumulator

def emptyDailyMap : DailyMap := fun _ => none

/-- One fold step of `aggregate_by_date`:
`acc.entry(msg.date).or_default().add_message(msg)`. -/
def foldMessage (m : DailyMap) (msg : UnifiedMessage) : DailyMap :=
  fun d =>
    if d = msg.date then
      some (((m msg.date).getD emptyDayAccumulator).addMessage msg)
    else m d

/-- A worker's local fold over its partition. -/
def aggregateFold (msgs : List UnifiedMessage) : DailyMap :=
  msgs.foldl foldMessage emptyDailyMap

/-- The reduce step of `aggregate_by_date`: key-by-key merge of two
daily maps (`a.entry(date).or_default().merge(acc)`). -/
def mergeDailyMaps (a b : DailyMap) : DailyMap :=
  fun d =>
    match b d with
    | none => a d
    | some acc => some (((a d).getD emptyDayAccumulator).merge acc)

/-- `DailyContribution` (src/core/src/lib.rs); the `sources` vector is
kept as the sub-map it came from. -/
structure DailyContribution where
  date : String
  totals : DailyTotals
  intensity : Nat
  token_breakdown : TokenBreakdown
  sources : List SourceContribution

/-- The `max_cost` fold of `calculate_intensities`: folded from 0.0 with
f64::max. -/
def costMax (contributions : List DailyContribution) : ℚ :=
  contributions.foldl (fun m c => max m c.totals.cost) 0

/-- The intensity ladder of `calculate_intensities` as a function of the
cost ratio. -/
def ratioIntensity (ratio : ℚ) : Nat :=
  if ratio ≥ 3/4 then 4
  else if ratio ≥ 1/2 then 3
  else if ratio ≥ 1/4 then 2
  else if ratio > 0 then 1
  else 0

/-- `calculate_intensities`: when `max_cost` is 0 the function returns
with the intensities unchanged; otherwise every day's intensity is set
from its cost ratio. -/
def calculateIntensities (contributions : List DailyContribution) : List DailyContribution :=
  let maxCost := costMax contributions
  if maxCost = 0 then contributions
  else contributions.map (fun c =>
    { c with intensity := ratioIntensity (c.totals.cost / maxCost) })

/-- The per-day intensity the spec describes: 0 when the maximum cost is
0, else the intensity ladder applied to cost / max_cost. -/
def specIntensity (cost maxCost : ℚ) : Nat :=
  if maxCost = 0 then 0 else ratioIntensity (cost / maxCost)

/-! ### Numeric shadows of the day accumulators

The sub-map entries of `DayAccumulator` carry both metadata (source,
model, provider strings) and numbers. The numeric shadow drops the
metadata; it is what the order-independence statements are about. -/

/-- The numeric fields of a `SourceContribution`. -/
@[ext]
structure NumSourceContribution where
  tokens : TokenBreakdown
  cost : ℚ
  messages : Int
deriving DecidableEq

def numOfContribution (sc : SourceContribution) : NumSourceContribution :=
  ⟨sc.tokens, sc.cost, sc.messages⟩

/-- The numeric fields of a `DayAccumulator`. -/
@[ext]
structure NumDayAcc where
  totals : DailyTotals
  token_breakdown : TokenBreakdown
  sources : String → Option NumSourceContribution

def numEmptyAcc : NumDayAcc := ⟨⟨0, 0, 0⟩, zeroBreakdown, fun _ => none⟩

def numOfAcc (a : DayAccumulator) : NumDayAcc :=
  ⟨a.totals, a.token_breakdown, fun k => (a.sources k).map numOfContribution⟩

/-- `add_message` on the numeric shadow. -/
def numAddMessage (acc : NumDayAcc) (msg : UnifiedMessage) : NumDayAcc :=
  let totalTokens := msg.tokens.input + msg.tokens.output + msg.tokens.cache_read
    + msg.tokens.cache_write + msg.tokens.reasoning
  let key := sourceKey msg
  let entry := (acc.sources key).getD ⟨zeroBreakdown, 0, 0⟩
  ⟨⟨acc.totals.tokens + totalTokens, acc.totals.cost + msg.cost, acc.totals.messages + 1⟩,
   addBreakdown acc.token_breakdown msg.tokens,
   fun k =>
     if k = key then
       some ⟨addBreakdown entry.tokens msg.tokens, entry.cost + msg.cost,
         entry.messages + 1⟩
     else acc.sources k⟩

abbrev NumDailyMap := String → Option NumDayAcc

def numOfMap (m : DailyMap) : NumDailyMap :=
  fun d => (m d).map numOfAcc

/-- The fold step of `aggregate_by_date` on the numeric shadow. -/
def numFoldMessage (m : NumDailyMap) (msg : UnifiedMessage) : NumDailyMap :=
  fun d =>
    if d = msg.date then
      some (numAddMessage ((m msg.date).getD numEmptyAcc) msg)
    else m d

/-! ## Monthly report (src/packages/core/src/lib.rs, get_monthly_report)

The month map is an association list in first-insertion order (standing
for the HashMap before the final sort); the models HashSet is a
duplicate-free list in insertion order.
-/

/-- `MonthAggregator` from lib.rs. -/
structure MonthAggregator where
  models : List String
  input : Int
  output : Int
  cache_read : Int
  cache_write : Int
  message_count : Int
  cost : ℚ
deriving DecidableEq, Repr

def emptyMonthAggregator : MonthAggregator := ⟨[], 0, 0, 0, 0, 0, 0⟩

/-- The body of the monthly loop for one message: set-insert the model,
sum the numeric fields. -/
def bumpMonth (agg : MonthAggregator) (msg : UnifiedMessage) : MonthAggregator :=
  { models := if msg.model_id ∈ agg.models then agg.models else agg.models ++ [msg.model_id]
    input := agg.input + msg.tokens.input
    output := agg.output + msg.tokens.output
    cache_read := agg.cache_read + msg.tokens.cache_read
    cache_write := agg.cache_write + msg.tokens.cache_write
    message_count := agg.message_count + 1
    cost := agg.cost + msg.cost }

/-- `month_map.entry(month).or_default()` followed by the updates:
update in place when the month is present, else append a fresh entry. -/
def monthInsert : List (String × MonthAggregator) → String → UnifiedMessage →
    List (String × MonthAggregator)
  | [], month, msg => [(month, bumpMonth emptyMonthAggregator msg)]
  | (k, a) :: rest, month, msg =>
    if k = month then (k, bumpMonth a msg) :: rest
    else (k, a) :: monthInsert rest month msg

/-- Whether a message is kept by the monthly loop (`date.len() >= 7`). -/
def keptByMonth (msg : UnifiedMessage) : Bool :=
  decide (7 ≤ strLen msg.date)

/-- The month of a kept message: the first 7 characters of its date. -/
def monthOf (msg : UnifiedMessage) : String :=
  takeStr msg.date 7

/-- One iteration of the monthly loop: records with a date shorter than
7 characters are skipped (`continue`). -/
def monthStep (m : List (String × MonthAggregator)) (msg : UnifiedMessage) :
    List (String × MonthAggregator) :=
  if keptByMonth msg then monthInsert m (monthOf msg) msg else m

/-- The whole monthly aggregation loop. -/
def monthlyFold (msgs : List UnifiedMessage) : List (String × MonthAggregator) :=
  msgs.foldl monthStep []

/-- `total_cost`: the sum of the aggregated entry costs (summing before
or after the month sort is the same sum). -/
def monthlyTotalCost (msgs : List UnifiedMessage) : ℚ :=
  ((monthlyFold msgs).map (fun e => e.2.cost)).sum

/-- Lookup of one month's aggregate in the month map. -/
def monthLookup : List (String × MonthAggregator) → String → Option MonthAggregator
  | [], _ => none
  | e :: rest, month => if e.1 = month then some e.2 else monthLookup rest month

/-- Repeated `bumpMonth` starting from an optional existing aggregate:
describes what a sequence of messages does to one month's entry. -/
def foldBump (o : Option MonthAggregator) (l : List UnifiedMessage) : Option MonthAggregator :=
  l.foldl (fun acc msg => some (bumpMonth (acc.getD emptyMonthAggregator) msg)) o

/-- The cost mass stored in a month map. -/
def mapCostSum (m : List (String × MonthAggregator)) : ℚ :=
  (m.map (fun e => e.2.cost)).sum

/-- Spec-side predicate (spec §4.3 step 6): the id occurs in the key as a
substring whose immediate neighbours are non-alphanumeric or at the
string edge. -/
def boundaryOccurrence (key modelId : String) : Prop :=
  ∃ i, modelId.toList.isPrefixOf (key.toList.drop i) = true
    ∧ (i = 0 ∨ (key.toList.getD (i - 1) ' ').isAlphanum = false)
    ∧ (i + modelId.toList.length = key.toList.length
       ∨ (key.toList.getD (i + modelId.toList.length) ' ').isAlphanum = false)

/-! ## Demonstration catalogs used by the concrete claims -/

def demoP1 : ModelPricing := ⟨some (FVal.fin 1), some (FVal.fin 2), none, none⟩

def demoP2 : ModelPricing := ⟨some (FVal.fin 3), some (FVal.fin 4), none, none⟩

/-- The entry of the C2 example: input 0.00000175, output 0.000014. -/
def demoP52 : ModelPricing :=
  ⟨some (FVal.fin (175/100000000)), some (FVal.fin (14/1000000)), none, none⟩

def demoGpt41 : PricingLookup := ⟨[("gpt-4.1", demoP1)], []⟩

def demoGpt5 : PricingLookup := ⟨[("gpt-5", demoP1)], []⟩

def demoGrok : PricingLookup :=
  ⟨[("xai/grok-code-fast-1-0825", demoP1), ("azure_ai/grok-code-fast-1", demoP2)], []⟩

def demoGpt52 : PricingLookup := ⟨[("gpt-5.2", demoP52)], []⟩

/-- Two messages with the same source and model but different providers:
they collide on the same `source:model` sub-map key. -/
def demoMsgP1 : UnifiedMessage := ⟨"s", "m", "p1", 0, "2024-01-01", zeroBreakdown, 0⟩

def demoMsgP2 : UnifiedMessage := ⟨"s", "m", "p2", 0, "2024-01-01", zeroBreakdown, 0⟩

def demoAccP1 : DayAccumulator := emptyDayAccumulator.addMessage demoMsgP1

def demoAccP2 : DayAccumulator := emptyDayAccumulator.addMessage demoMsgP2

/-- Three days with costs 3, 1 and 4: ratios 0.75, 0.25 and 1. -/
def demoDays : List DailyContribution :=
  [⟨"2024-01-01", ⟨0, 3, 0⟩, 0, zeroBreakdown, []⟩,
   ⟨"2024-01-02", ⟨0, 1, 0⟩, 0, zeroBreakdown, []⟩,
   ⟨"2024-01-03", ⟨0, 4, 0⟩, 0, zeroBreakdown, []⟩]

/-! ## C7: cache TTL -/

/-- C7: for every cache entry parsed as a timestamp/data envelope, load
returns the data exactly when timestamp ≤ now and now − timestamp ≤ 3600
seconds, and returns None on a missing file or parse failure, on an entry
older than the TTL (an entry aged 3601 s is a miss, one aged 3599 s is a
hit), and on a future timestamp. -/
theorem cache_ttl :
    (∀ (α : Type) (ts now : Nat) (d : α),
        loadCache (some ⟨ts, d⟩) now = some d ↔ ts ≤ now ∧ now - ts ≤ 3600)
    ∧ (∀ (α : Type) (now : Nat), loadCache (none : Option (CachedData α)) now = none)
    ∧ (∀ d : Nat, loadCache (some ⟨6399, d⟩) 10000 = none)
    ∧ (∀ d : Nat, loadCache (some ⟨6401, d⟩) 10000 = some d)
    ∧ (∀ d : Nat, loadCache (some ⟨10001, d⟩) 10000 = none) := by
  refine ⟨?_, ?_, ?_, ?_, ?_⟩
  · intro α ts now d
    simp only [loadCache, cacheTtlSecs, Bool.or_eq_true, decide_eq_true_eq]
    by_cases hgt : ts > now ∨ now - ts > 3600
    · rw [if_pos hgt]
      simp only [false_iff, reduceCtorEq]
      omega
    · rw [if_neg hgt]
      simp only [Option.some.injEq, true_iff]
      omega
  · intro α now
    rfl
  · intro d
    show (if (decide ((6399 : Nat) > 10000) || decide (10000 - 6399 > cacheTtlSecs)) = true
          then (none : Option Nat) else some d) = none
    norm_num [cacheTtlSecs]
  · intro d
    show (if (decide ((6401 : Nat) > 10000) || decide (10000 - 6401 > cacheTtlSecs)) = true
          then (none : Option Nat) else some d) = some d
    norm_num [cacheTtlSecs]
  · intro d
    show (if (decide ((10001 : Nat) > 10000) || decide (10000 - 10001 > cacheTtlSecs)) = true
          then (none : Option Nat) else some d) = none
    norm_num [cacheTtlSecs]

/-! ## C2: cost calculation -/

/-- C2: calculate_cost returns 0 when resolution fails, and otherwise
bills input at the input rate, output plus reasoning at the output rate
and the cache tokens at their rates, with every missing, non-finite or
negative price component clamped to 0; on the demonstration catalog the
C2 example costs 35/4 = 8.75. -/
theorem calculate_cost_spec :
    (∀ (pl : PricingLookup) (id : String) (i o cr cw rs : Int),
        lookupPure pl id = none → calculateCost pl id i o cr cw rs = 0)
    ∧ (∀ (pl : PricingLookup) (id : String) (i o cr cw rs : Int) (r : LookupResult),
        lookupPure pl id = some r →
        calculateCost pl id i o cr cw rs =
          (i : ℚ) * safePrice r.pricing.input_cost_per_token
          + ((o + rs : Int) : ℚ) * safePrice r.pricing.output_cost_per_token
          + (cr : ℚ) * safePrice r.pricing.cache_read_input_token_cost
          + (cw : ℚ) * safePrice r.pricing.cache_creation_input_token_cost)
    ∧ (∀ q : ℚ, safePrice (some (FVal.fin q)) = if 0 ≤ q then q else 0)
    ∧ safePrice none = 0
    ∧ safePrice (some FVal.nan) = 0
    ∧ safePrice (some FVal.inf) = 0
    ∧ safePrice (some FVal.ninf) = 0
    ∧ calculateCost demoGpt52 "gpt-5.2" 1000000 500000 0 0 0 = 35/4 := by
  refine ⟨?_, ?_, fun q => rfl, rfl, rfl, rfl, rfl, ?_⟩
  · intro pl id i o cr cw rs h
    simp only [calculateCost, h]
  · intro pl id i o cr cw rs r h
    simp only [calculateCost, h]
  · have h : lookupPure demoGpt52 "gpt-5.2" = some ⟨demoP52, "LiteLLM", "gpt-5.2"⟩ := rfl
    rw [calculateCost, h]
    simp only [safePrice, demoP52]
    norm_num

/-- Witness for C2: the spec's unknown-model example, resolved through
the first conjunct of the theorem. -/
theorem calculate_cost_spec_witness :
    lookupPure demoGpt52 "totally-unknown-xyz" = none
    ∧ calculateCost demoGpt52 "totally-unknown-xyz" 1000000 500000 0 0 0 = 0 :=
  ⟨rfl, calculate_cost_spec.1 demoGpt52 "totally-unknown-xyz" 1000000 500000 0 0 0 rfl⟩

/-! ## C10: monthly report -/

lemma monthLookup_insert (m : List (String × MonthAggregator)) (month q : String)
    (msg : UnifiedMessage) :
    monthLookup (monthInsert m month msg) q =
      if q = month then
        some (bumpMonth ((monthLookup m month).getD emptyMonthAggregator) msg)
      else monthLookup m q := by
  induction m with
  | nil =>
    by_cases h : q = month
    · subst h
      simp [monthInsert, monthLookup]
    · simp [monthInsert, monthLookup, h, Ne.symm h]
  | cons e rest ih =>
    obtain ⟨k, a⟩ := e
    by_cases hk : k = month
    · subst hk
      simp only [monthInsert, if_pos rfl]
      by_cases hq : q = k
      · subst hq
        simp [monthLookup]
      · simp [monthLookup, hq, Ne.symm hq]
    · simp only [monthInsert, if_neg hk]
      by_cases hkq : k = q
      · subst hkq
        simp [monthLookup, hk]
      · simp [monthLookup, hkq, hk, ih]

lemma monthly_fold_lookup (msgs : List UnifiedMessage)
    (m : List (String × MonthAggregator)) (q : String) :
    monthLookup (msgs.foldl monthStep m) q =
      foldBump (monthLookup m q)
        (msgs.filter (fun x => keptByMonth x && (monthOf x == q))) := by
  induction msgs generalizing m with
  | nil => rfl
  | cons msg rest ih =>
    simp only [List.foldl_cons, List.filter_cons]
    by_cases hkept : keptByMonth msg = true
    · by_cases hq : monthOf msg = q
      · rw [if_pos (by simp [hkept, hq])]
        rw [show monthStep m msg = monthInsert m (monthOf msg) msg from by
          simp [monthStep, hkept]]
        rw [ih, monthLookup_insert, if_pos hq.symm, hq]
        simp only [foldBump, List.foldl_cons]
      · rw [if_neg (by simp [hkept, hq])]
        rw [show monthStep m msg = monthInsert m (monthOf msg) msg from by
          simp [monthStep, hkept]]
        rw [ih, monthLookup_insert, if_neg (fun hh => hq hh.symm)]
    · rw [if_neg (by simp [hkept])]
      rw [show monthStep m msg = m from by simp [monthStep, hkept]]
      exact ih m

lemma monthly_fold_filter (msgs : List UnifiedMessage)
    (m : List (String × MonthAggregator)) :
    msgs.foldl monthStep m = (msgs.filter keptByMonth).foldl monthStep m := by
  induction msgs generalizing m with
  | nil => rfl
  | cons msg rest ih =>
    simp only [List.foldl_cons, List.filter_cons]
    by_cases hkept : keptByMonth msg = true
    · rw [if_pos hkept]
      simp only [List.foldl_cons]
      exact ih _
    · rw [if_neg (by simp [hkept])]
      rw [show monthStep m msg = m from by simp [monthStep, hkept]]
      exact ih m

lemma mapCostSum_insert (m : List (String × MonthAggregator)) (month : String)
    (msg : UnifiedMessage) :
    mapCostSum (monthInsert m month msg) = mapCostSum m + msg.cost := by
  induction m with
  | nil => simp [monthInsert, mapCostSum, bumpMonth, emptyMonthAggregator]
  | cons e rest ih =>
    obtain ⟨k, a⟩ := e
    by_cases hk : k = month
    · simp [monthInsert, hk, mapCostSum, bumpMonth]
      ring
    · simp [monthInsert, hk, mapCostSum] at ih ⊢
      rw [ih]
      ring

lemma monthly_fold_cost (msgs : List UnifiedMessage)
    (m : List (String × MonthAggregator)) :
    mapCostSum (msgs.foldl monthStep m) =
      mapCostSum m + (((msgs.filter keptByMonth).map (fun x => x.cost)).sum) := by
  induction msgs generalizing m with
  | nil => simp
  | cons msg rest ih =>
    simp only [List.foldl_cons, List.filter_cons]
    by_cases hkept : keptByMonth msg = true
    · rw [if_pos hkept]
      rw [show monthStep m msg = monthInsert m (monthOf msg) msg from by
        simp [monthStep, hkept]]
      rw [ih, mapCostSum_insert]
      simp only [List.map_cons, List.sum_cons]
      ring
    · rw [if_neg (by simp [hkept])]
      rw [show monthStep m msg = m from by simp [monthStep, hkept]]
      exact ih m

/-- C10: the monthly report silently skips every record whose date has
fewer than 7 characters — the month map and the total cost are the same
as if those records were filtered out — and every kept record is
aggregated into the bucket named by the first 7 characters of its date. -/
theorem monthly_report_short_dates :
    (∀ msgs : List UnifiedMessage,
        monthlyFold msgs = monthlyFold (msgs.filter keptByMonth))
    ∧ (∀ msgs : List UnifiedMessage,
        monthlyTotalCost msgs = ((msgs.filter keptByMonth).map (fun x => x.cost)).sum)
    ∧ (∀ (msgs : List UnifiedMessage) (month : String),
        monthLookup (monthlyFold msgs) month =
          foldBump none (msgs.filter (fun x => keptByMonth x && (monthOf x == month))))
    ∧ (∀ msg : UnifiedMessage, keptByMonth msg = false ↔ strLen msg.date < 7) := by
  refine ⟨?_, ?_, ?_, ?_⟩
  · intro msgs
    exact monthly_fold_filter msgs []
  · intro msgs
    have h := monthly_fold_cost msgs []
    simpa [monthlyTotalCost, mapCostSum] using h
  · intro msgs month
    exact monthly_fold_lookup msgs [] month
  · intro msg
    simp only [keptByMonth, decide_eq_false_iff_not, not_le]

/-! ## C3: composed suffix stripping -/

/-- C3: when direct resolution of the canonicalized id fails, resolution
retries on the tier-suffix-stripped id, then on that id with a fallback
suffix also stripped (and symmetrically in the other strip order); with
only "gpt-5" in the catalog, resolving "gpt-5-codex-high" returns the
"gpt-5" entry. -/
theorem suffix_stripping_composed :
    (∀ (pl : PricingLookup) (id : String) (fs : Option String) (t f : String)
        (r : LookupResult),
        doLookup pl fs (lowerCanon id) = none →
        stripTierSuffix (lowerCanon id) = some t →
        doLookup pl fs t = none →
        stripFallbackSuffix t = some f →
        doLookup pl fs f = some r →
        lookupWithSource pl id fs = some r)
    ∧ (∀ (pl : PricingLookup) (id : String) (fs : Option String) (f t : String)
        (r : LookupResult),
        doLookup pl fs (lowerCanon id) = none →
        stripTierSuffix (lowerCanon id) = none →
        stripFallbackSuffix (lowerCanon id) = some f →
        doLookup pl fs f = none →
        stripTierSuffix f = some t →
        doLookup pl fs t = some r →
        lookupWithSource pl id fs = some r)
    ∧ lookupWithSource demoGpt5 "gpt-5-codex-high" none =
        some ⟨demoP1, "LiteLLM", "gpt-5"⟩ := by
  refine ⟨?_, ?_, rfl⟩
  · intro pl id fs t f r h0 h1 h2 h3 h4
    simp only [lookupWithSource, h0, h1, h2, h3, h4]
  · intro pl id fs f t r h0 h1 h2 h3 h4 h5
    simp only [lookupWithSource, h0, h1, h2, h3, h4, h5]

/-- Witness for C3: the spec's own example, with each hypothesis of the
tier-then-fallback conjunct evaluated on the demonstration catalog. -/
theorem suffix_stripping_composed_witness :
    doLookup demoGpt5 none (lowerCanon "gpt-5-codex-high") = none
    ∧ stripTierSuffix (lowerCanon "gpt-5-codex-high") = some "gpt-5-codex"
    ∧ doLookup demoGpt5 none "gpt-5-codex" = none
    ∧ stripFallbackSuffix "gpt-5-codex" = some "gpt-5"
    ∧ doLookup demoGpt5 none "gpt-5" = some ⟨demoP1, "LiteLLM", "gpt-5"⟩
    ∧ lookupWithSource demoGpt5 "gpt-5-codex-high" none =
        some ⟨demoP1, "LiteLLM", "gpt-5"⟩ :=
  ⟨rfl, rfl, rfl, rfl, rfl,
   suffix_stripping_composed.1 demoGpt5 "gpt-5-codex-high" none "gpt-5-codex" "gpt-5"
     ⟨demoP1, "LiteLLM", "gpt-5"⟩ rfl rfl rfl rfl rfl⟩

/-! ## C4: provider-preference tie-break -/

/-- C4: when both catalogs yield a fuzzy candidate and no source is
forced, the combined result prefers an original-provider key over a
non-original one, else a non-reseller key over a reseller key, else the
LiteLLM candidate; and with xai/grok-code-fast-1-0825 and
azure_ai/grok-code-fast-1 present, resolving "grok-code" returns the
xai/ entry. -/
theorem provider_preference :
    (∀ l o : LookupResult,
        isOriginalProvider o.matched_key = true →
        isOriginalProvider l.matched_key = false →
        preferProviderResult (some l) (some o) = some o)
    ∧ (∀ l o : LookupResult,
        isOriginalProvider l.matched_key = true →
        isOriginalProvider o.matched_key = false →
        preferProviderResult (some l) (some o) = some l)
    ∧ (∀ l o : LookupResult,
        isOriginalProvider l.matched_key = isOriginalProvider o.matched_key →
        isResellerProvider l.matched_key = false →
        isResellerProvider o.matched_key = true →
        preferProviderResult (some l) (some o) = some l)
    ∧ (∀ l o : LookupResult,
        isOriginalProvider l.matched_key = isOriginalProvider o.matched_key →
        isResellerProvider l.matched_key = true →
        isResellerProvider o.matched_key = false →
        preferProviderResult (some l) (some o) = some o)
    ∧ (∀ l o : LookupResult,
        isOriginalProvider l.matched_key = isOriginalProvider o.matched_key →
        isResellerProvider l.matched_key = isResellerProvider o.matched_key →
        preferProviderResult (some l) (some o) = some l)
    ∧ (∀ (pl : PricingLookup) (id : String),
        exactMatchLitellm pl id = none →
        exactMatchOpenrouter pl id = none →
        (∀ vn, normalizeVersionSeparator id = some vn →
          exactMatchLitellm pl vn = none ∧ exactMatchOpenrouter pl vn = none
          ∧ providerKeyMatchLitellm pl vn = none ∧ providerKeyMatchOpenrouter pl vn = none) →
        (∀ nm, normalizeModelName id = some nm →
          exactMatchLitellm pl nm = none ∧ exactMatchOpenrouter pl nm = none) →
        providerKeyMatchLitellm pl id = none →
        providerKeyMatchOpenrouter pl id = none →
        isFuzzyEligible id = true →
        lookupAuto pl id =
          preferProviderResult (fuzzyMatchLitellm pl id) (fuzzyMatchOpenrouter pl id))
    ∧ (lookupWithSource demoGrok "grok-code" none).map (fun r => r.matched_key) =
        some "xai/grok-code-fast-1-0825" := by
  refine ⟨?_, ?_, ?_, ?_, ?_, ?_, by decide⟩
  · intro l o ho hl
    simp [preferProviderResult, ho, hl]
  · intro l o hl ho
    simp [preferProviderResult, ho, hl]
  · intro l o heq hl ho
    cases hl2 : isOriginalProvider l.matched_key <;>
      simp [preferProviderResult, hl2, heq ▸ hl2, hl, ho]
  · intro l o heq hl ho
    cases hl2 : isOriginalProvider l.matched_key <;>
      simp [preferProviderResult, hl2, heq ▸ hl2, hl, ho]
  · intro l o heq hres
    cases hl2 : isOriginalProvider l.matched_key <;>
      cases hr2 : isResellerProvider l.matched_key <;>
      simp [preferProviderResult, hl2, hr2, heq ▸ hl2, hres ▸ hr2]
  · intro pl id h1 h2 h3 h4 h5 h6 h7
    simp only [lookupAuto, h1, h2, h5, h6, h7]
    cases hnvs : normalizeVersionSeparator id with
    | none =>
      cases hnm : normalizeModelName id with
      | none => simp [hnvs, hnm]
      | some nm =>
        obtain ⟨ha, hb⟩ := h4 nm hnm
        simp [hnvs, hnm, ha, hb]
    | some vn =>
      obtain ⟨ha, hb, hc, hd⟩ := h3 vn hnvs
      cases hnm : normalizeModelName id with
      | none => simp [hnvs, hnm, ha, hb, hc, hd]
      | some nm =>
        obtain ⟨he, hf⟩ := h4 nm hnm
        simp [hnvs, hnm, ha, hb, hc, hd, he, hf]

/-- Witness for C4: the original-over-reseller conjunct applied to the
concrete grok-code candidates. -/
theorem provider_preference_witness :
    isOriginalProvider "xai/grok-code-fast-1-0825" = true
    ∧ isOriginalProvider "azure_ai/grok-code-fast-1" = false
    ∧ preferProviderResult
        (some ⟨demoP2, "LiteLLM", "azure_ai/grok-code-fast-1"⟩)
        (some ⟨demoP1, "OpenRouter", "xai/grok-code-fast-1-0825"⟩) =
        some ⟨demoP1, "OpenRouter", "xai/grok-code-fast-1-0825"⟩ :=
  ⟨rfl, rfl,
   provider_preference.1 ⟨demoP2, "LiteLLM", "azure_ai/grok-code-fast-1"⟩
     ⟨demoP1, "OpenRouter", "xai/grok-code-fast-1-0825"⟩ rfl rfl⟩

/-! ## C9: memoization transparency -/

/-- C9: the memoized lookup is transparent: starting from any consistent
cache (the empty cache is consistent, and every lookup preserves
consistency), `lookup(id)` returns exactly `lookup_with_source(id, None)`,
so repeated calls with or without a warmed cache return identical
results. -/
theorem lookup_memoization :
    (∀ pl : PricingLookup, cacheConsistent pl [])
    ∧ (∀ (pl : PricingLookup) (cache : LookupCache) (id : String),
        cacheConsistent pl cache →
        (lookupMemo pl cache id).1 = lookupWithSource pl id none)
    ∧ (∀ (pl : PricingLookup) (cache : LookupCache) (id : String),
        cacheConsistent pl cache →
        cacheConsistent pl (lookupMemo pl cache id).2) := by
  have hmain : ∀ (pl : PricingLookup) (cache : LookupCache) (mid : String),
      cacheConsistent pl cache →
      (lookupMemo pl cache mid).1 = lookupWithSource pl mid none := by
    intro pl cache mid hcon
    cases hget : cacheGet cache mid with
    | none => unfold lookupMemo; rw [hget]
    | some cached =>
      unfold lookupMemo
      rw [hget]
      obtain ⟨e, hfind, hsnd⟩ : ∃ e, cache.find? (fun e => e.1 == mid) = some e
          ∧ e.2 = cached := by
        cases hf : cache.find? (fun e => e.1 == mid) with
        | none => rw [cacheGet, hf] at hget; simp at hget
        | some e =>
          rw [cacheGet, hf] at hget
          simp at hget
          exact ⟨e, rfl, hget⟩
      have hmem := List.mem_of_find?_eq_some hfind
      have heq1 : e.1 = mid := by simpa using List.find?_some hfind
      have hval := hcon e hmem
      rw [heq1] at hval
      rw [← hsnd, hval]
      change Option.map ofCachedResult
          (Option.map toCachedResult (lookupWithSource pl mid none)) =
        lookupWithSource pl mid none
      rw [Option.map_map]
      have hcomp : ofCachedResult ∘ toCachedResult = fun r => r := rfl
      rw [hcomp]
      simp
  refine ⟨?_, hmain, ?_⟩
  · intro pl e he
    exact absurd he (List.not_mem_nil e)
  · intro pl cache id hcon
    cases hget : cacheGet cache id with
    | none =>
      simp only [lookupMemo, hget]
      intro e he
      rcases List.mem_cons.mp he with h | h
      · rw [h]
      · exact hcon e h
    | some cached =>
      simp only [lookupMemo, hget]
      exact hcon

/-- Witness for C9: a memoized lookup on the empty cache agrees with the
uncached resolution of the C2 example id. -/
theorem lookup_memoization_witness :
    cacheConsistent demoGpt52 []
    ∧ (lookupMemo demoGpt52 [] "gpt-5.2").1 = lookupWithSource demoGpt52 "gpt-5.2" none :=
  ⟨lookup_memoization.1 demoGpt52,
   lookup_memoization.2.1 demoGpt52 [] "gpt-5.2" (lookup_memoization.1 demoGpt52)⟩

/-! ## C8: fetch error handling -/

/-- C8 counterexample: a fully malformed top-level OpenRouter models
response does not fail that source's fetch — `fetch_all_models` has no
error channel and returns an ordinary (empty) catalog, and the joined
service fetch still succeeds. -/
theorem openrouter_malformed_counterexample :
    openrouterFetchAllModels none (fun _ => none) = []
    ∧ serviceFetchOutcome (some [("gpt-5", demoP1)]) none (fun _ => none) =
        Except.ok ([("gpt-5", demoP1)], []) :=
  ⟨rfl, rfl⟩

/-- C8 amended: a fully malformed top-level response fails the LiteLLM
fetch with an error, but makes the OpenRouter fetch return an empty
catalog without error; malformed individual per-model entries of the
OpenRouter fetch are dropped without failing the whole fetch, and only
the LiteLLM outcome decides whether the joined service fetch fails. -/
theorem fetch_error_handling_amended :
    litellmHandleBody none = Except.error "LiteLLM JSON parse failed"
    ∧ (∀ c : Catalog, litellmHandleBody (some c) = Except.ok c)
    ∧ (∀ detail : String → Option ModelPricing,
        openrouterFetchAllModels none detail = [])
    ∧ (∀ (ids : List String) (detail : String → Option ModelPricing)
        (id : String) (p : ModelPricing),
        detail id = none → (id, p) ∉ openrouterFetchAllModels (some ids) detail)
    ∧ (∀ (ids : List String) (detail : String → Option ModelPricing)
        (id : String) (p : ModelPricing),
        id ∈ ids → (getAuthorProviderName id).isSome = true →
        detail id = some p → (id, p) ∈ openrouterFetchAllModels (some ids) detail)
    ∧ (∀ (litellmBody : Option Catalog) (orListBody : Option (List String))
        (detail : String → Option ModelPricing),
        (serviceFetchOutcome litellmBody orListBody detail).isOk =
          (litellmHandleBody litellmBody).isOk) := by
  have hfetch : ∀ (ids : List String) (detail : String → Option ModelPricing),
      openrouterFetchAllModels (some ids) detail =
        (ids.filter (fun i => (getAuthorProviderName i).isSome)).filterMap
          (fun i => (detail i).map (fun pricing => (i, pricing))) := by
    intro ids detail
    cases ids with
    | nil => rfl
    | cons a l => rfl
  refine ⟨rfl, fun c => rfl, fun detail => rfl, ?_, ?_, ?_⟩
  · intro ids detail id p hnone hmem
    rw [hfetch] at hmem
    rw [List.mem_filterMap] at hmem
    obtain ⟨a, _, hm⟩ := hmem
    cases hd : detail a with
    | none => rw [hd] at hm; simp at hm
    | some pr =>
      rw [hd] at hm
      simp at hm
      exact absurd (hm.1 ▸ hd) (by rw [hnone]; simp)
  · intro ids detail id p hmem hauth hdet
    rw [hfetch, List.mem_filterMap]
    refine ⟨id, List.mem_filter.mpr ⟨hmem, hauth⟩, ?_⟩
    rw [hdet]
    rfl
  · intro litellmBody orListBody detail
    cases litellmBody with
    | none => rfl
    | some c => rfl

/-- Witness for C8: one malformed per-model entry (z-ai) is dropped while
a well-formed one (x-ai) is kept, through the presence and absence
conjuncts of the theorem. -/
theorem fetch_error_handling_amended_witness :
    ("x-ai/grok-4", demoP1) ∈ openrouterFetchAllModels
        (some ["x-ai/grok-4", "z-ai/glm-4.7"])
        (fun id => if id == "x-ai/grok-4" then some demoP1 else none)
    ∧ ("z-ai/glm-4.7", demoP1) ∉ openrouterFetchAllModels
        (some ["x-ai/grok-4", "z-ai/glm-4.7"])
        (fun id => if id == "x-ai/grok-4" then some demoP1 else none) :=
  ⟨fetch_error_handling_amended.2.2.2.2.1 ["x-ai/grok-4", "z-ai/glm-4.7"]
     (fun id => if id == "x-ai/grok-4" then some demoP1 else none)
     "x-ai/grok-4" demoP1 (by simp) rfl rfl,
   fetch_error_handling_amended.2.2.2.1 ["x-ai/grok-4", "z-ai/glm-4.7"]
     (fun id => if id == "x-ai/grok-4" then some demoP1 else none)
     "z-ai/glm-4.7" demoP1 rfl⟩

/-! ## C1: word-boundary fuzzy matching -/

lemma findSub_sound (hay needle : List Char) (i : Nat)
    (h : findSub hay needle = some i) :
    needle.isPrefixOf (hay.drop i) = true := by
  induction hay generalizing i with
  | nil =>
    rw [findSub] at h
    by_cases hp : needle.isPrefixOf ([] : List Char) = true
    · rw [if_pos hp] at h
      injection h with h
      subst h
      simpa using hp
    · rw [if_neg hp] at h
      exact absurd h (by simp)
  | cons c rest ih =>
    rw [findSub] at h
    by_cases hp : needle.isPrefixOf (c :: rest) = true
    · rw [if_pos hp] at h
      injection h with h
      subst h
      simpa using hp
    · rw [if_neg hp] at h
      cases hf : findSub rest needle with
      | none => rw [hf] at h; simp at h
      | some j =>
        rw [hf] at h
        simp at h
        subst h
        simpa using ih j hf

lemma selectBestMatch_mem (cands : List String) (ds : Catalog) (src : String)
    (r : LookupResult) (h : selectBestMatch cands ds src = some r) :
    r.matched_key ∈ cands := by
  cases cands with
  | nil => exact absurd h (by simp [selectBestMatch])
  | cons first rest =>
    unfold selectBestMatch at h
    cases hfo : (first :: rest).find? (fun k => isOriginalProvider k) with
    | some key =>
      rw [hfo] at h
      injection h with h
      rw [← h]
      exact List.mem_of_find?_eq_some hfo
    | none =>
      rw [hfo] at h
      cases hfn : (first :: rest).find? (fun k => !(isResellerProvider k)) with
      | some key =>
        rw [hfn] at h
        injection h with h
        rw [← h]
        exact List.mem_of_find?_eq_some hfn
      | none =>
        rw [hfn] at h
        injection h with h
        rw [← h]
        exact List.mem_cons_self first rest

lemma fuzzyMatchLitellm_boundary (pl : PricingLookup) (mid : String) (r : LookupResult)
    (h : fuzzyMatchLitellm pl mid = some r) :
    containsModelId (toLowerStr r.matched_key) mid = true := by
  simp only [fuzzyMatchLitellm] at h
  split at h
  next result heq =>
    injection h with h2
    subst h2
    have hmem := selectBestMatch_mem _ _ _ _ heq
    rw [List.mem_filter] at hmem
    have h3 := hmem.2
    simp only [Bool.and_eq_true] at h3
    exact h3.2
  next heq =>
    have hmem := selectBestMatch_mem _ _ _ _ h
    rw [List.mem_filter] at hmem
    exact hmem.2

lemma fuzzyMatchOpenrouter_boundary (pl : PricingLookup) (mid : String) (r : LookupResult)
    (h : fuzzyMatchOpenrouter pl mid = some r) :
    containsModelId (lastSegAfterSlash (toLowerStr r.matched_key)) mid = true := by
  simp only [fuzzyMatchOpenrouter] at h
  split at h
  next result heq =>
    injection h with h2
    subst h2
    have hmem := selectBestMatch_mem _ _ _ _ heq
    rw [List.mem_filter] at hmem
    have h3 := hmem.2
    simp only [Bool.and_eq_true] at h3
    exact h3.2
  next heq =>
    have hmem := selectBestMatch_mem _ _ _ _ h
    rw [List.mem_filter] at hmem
    exact hmem.2

/-- C1 counterexample: with a catalog containing only the key "gpt-4.1",
resolving "gpt-4" does return "gpt-4.1" — the '.' neighbour is
non-alphanumeric, so the boundary check does not reject it. -/
theorem gpt4_fuzzy_counterexample :
    (lookupWithSource demoGpt41 "gpt-4" none).map (fun r => r.matched_key) =
      some "gpt-4.1" := by decide

/-- C1 amended: every fuzzy candidate key does contain the id as a
substring whose immediate neighbours are non-alphanumeric or at the
string edge (for the OpenRouter catalog, within the bare model part of
the key); but since '.' is non-alphanumeric this does not prevent
"gpt-4" from matching "gpt-4.1": with a catalog containing only
"gpt-4.1", resolving "gpt-4" returns "gpt-4.1". -/
theorem fuzzy_boundary_amended :
    (∀ key mid : String, containsModelId key mid = true → boundaryOccurrence key mid)
    ∧ (∀ (pl : PricingLookup) (mid : String) (r : LookupResult),
        fuzzyMatchLitellm pl mid = some r →
        containsModelId (toLowerStr r.matched_key) mid = true)
    ∧ (∀ (pl : PricingLookup) (mid : String) (r : LookupResult),
        fuzzyMatchOpenrouter pl mid = some r →
        containsModelId (lastSegAfterSlash (toLowerStr r.matched_key)) mid = true)
    ∧ containsModelId "gpt-4.1" "gpt-4" = true
    ∧ Char.isAlphanum '.' = false
    ∧ (lookupWithSource demoGpt41 "gpt-4" none).map (fun r => r.matched_key) =
        some "gpt-4.1" := by
  refine ⟨?_, fuzzyMatchLitellm_boundary, fuzzyMatchOpenrouter_boundary,
    by decide, by decide, by decide⟩
  intro key mid h
  simp only [containsModelId] at h
  split at h
  · exact absurd h (by simp)
  next pos heq =>
    simp only [Bool.and_eq_true, Bool.or_eq_true, beq_iff_eq,
      Bool.not_eq_true'] at h
    exact ⟨pos, findSub_sound _ _ _ heq, h.1, h.2⟩

/-- Witness for C1: the fuzzy-candidate conjunct evaluated on the
"gpt-4.1" catalog, and the boundary occurrence it implies. -/
theorem fuzzy_boundary_amended_witness :
    fuzzyMatchLitellm demoGpt41 "gpt-4" = some ⟨demoP1, "LiteLLM", "gpt-4.1"⟩
    ∧ containsModelId (toLowerStr "gpt-4.1") "gpt-4" = true
    ∧ boundaryOccurrence "gpt-4.1" "gpt-4" :=
  ⟨rfl,
   fuzzy_boundary_amended.2.1 demoGpt41 "gpt-4" ⟨demoP1, "LiteLLM", "gpt-4.1"⟩ rfl,
   fuzzy_boundary_amended.1 "gpt-4.1" "gpt-4" (by decide)⟩

/-! ## C6: intensity assignment -/

lemma foldlMax_init_le (cs : List DailyContribution) (a : ℚ) :
    a ≤ cs.foldl (fun m c => max m c.totals.cost) a := by
  induction cs generalizing a with
  | nil => exact le_refl a
  | cons x rest ih => exact le_trans (le_max_left a x.totals.cost) (ih _)

lemma foldlMax_ub (cs : List DailyContribution) (a : ℚ) :
    ∀ c ∈ cs, c.totals.cost ≤ cs.foldl (fun m c => max m c.totals.cost) a := by
  induction cs generalizing a with
  | nil => intro c hc; exact absurd hc (List.not_mem_nil c)
  | cons x rest ih =>
    intro c hc
    rcases List.mem_cons.mp hc with rfl | hc2
    · exact le_trans (le_max_right a c.totals.cost) (foldlMax_init_le rest _)
    · exact ih _ c hc2

lemma foldlMax_cases (cs : List DailyContribution) (a : ℚ) :
    cs.foldl (fun m c => max m c.totals.cost) a = a
    ∨ ∃ c ∈ cs, cs.foldl (fun m c => max m c.totals.cost) a = c.totals.cost := by
  induction cs generalizing a with
  | nil => exact Or.inl rfl
  | cons x rest ih =>
    rcases ih (max a x.totals.cost) with h | ⟨c, hc, h⟩
    · by_cases hx : x.totals.cost ≤ a
      · left
        simp only [List.foldl_cons]
        rw [h]
        exact max_eq_left hx
      · right
        refine ⟨x, List.mem_cons_self x rest, ?_⟩
        push_neg at hx
        simp only [List.foldl_cons]
        rw [h]
        exact max_eq_right (le_of_lt hx)
    · exact Or.inr ⟨c, List.mem_cons_of_mem x hc, h⟩

/-- C6: when the maximum cost is 0 all intensities stay 0; otherwise each
day's intensity is the ladder value of its cost ratio (4 at ratio ≥ 0.75,
3 at ≥ 0.5, 2 at ≥ 0.25, 1 above 0, else 0); the folded max is the true
maximum over non-negative-cost days; and the ladder is monotone
non-decreasing in the ratio. -/
theorem intensity_assignment :
    (∀ cs : List DailyContribution, costMax cs = 0 → calculateIntensities cs = cs)
    ∧ (∀ cs : List DailyContribution, costMax cs ≠ 0 →
        calculateIntensities cs =
          cs.map (fun c =>
            { c with intensity := ratioIntensity (c.totals.cost / costMax cs) }))
    ∧ (∀ cs : List DailyContribution, (∀ c ∈ cs, c.intensity = 0) →
        ∀ c ∈ calculateIntensities cs,
          c.intensity = specIntensity c.totals.cost (costMax cs))
    ∧ (∀ cs : List DailyContribution, cs ≠ [] → (∀ c ∈ cs, 0 ≤ c.totals.cost) →
        (∃ c ∈ cs, costMax cs = c.totals.cost)
        ∧ ∀ c ∈ cs, c.totals.cost ≤ costMax cs)
    ∧ (∀ r1 r2 : ℚ, r1 ≤ r2 → ratioIntensity r1 ≤ ratioIntensity r2) := by
  have h1 : ∀ cs : List DailyContribution, costMax cs = 0 → calculateIntensities cs = cs := by
    intro cs h
    simp [calculateIntensities, h]
  have h2 : ∀ cs : List DailyContribution, costMax cs ≠ 0 →
      calculateIntensities cs =
        cs.map (fun c =>
          { c with intensity := ratioIntensity (c.totals.cost / costMax cs) }) := by
    intro cs h
    simp [calculateIntensities, h]
  refine ⟨h1, h2, ?_, ?_, ?_⟩
  · intro cs h0 c hc
    by_cases hm : costMax cs = 0
    · rw [h1 cs hm] at hc
      rw [h0 c hc, specIntensity, if_pos hm]
    · rw [h2 cs hm] at hc
      obtain ⟨c0, hc0, rfl⟩ := List.mem_map.mp hc
      simp [specIntensity, hm]
  · intro cs hne hpos
    constructor
    · rcases foldlMax_cases cs 0 with h | ⟨c, hc, h⟩
      · cases cs with
        | nil => exact absurd rfl hne
        | cons x rest =>
          refine ⟨x, List.mem_cons_self x rest, ?_⟩
          have hub := foldlMax_ub (x :: rest) 0 x (List.mem_cons_self x rest)
          have hx0 := hpos x (List.mem_cons_self x rest)
          rw [h] at hub
          simp only [costMax]
          rw [h]
          exact le_antisymm hx0 hub
      · exact ⟨c, hc, h⟩
    · exact foldlMax_ub cs 0
  · intro r1 r2 h
    rw [ratioIntensity, ratioIntensity]
    split_ifs <;> first | omega | (exfalso; linarith)

/-- Witness for C6: three days with costs 3, 1 and 4 — the boundary
ratios 0.75 and 0.25 give intensities 4 and 2. -/
theorem intensity_assignment_witness :
    (∀ c ∈ demoDays, c.intensity = 0)
    ∧ (∀ c ∈ calculateIntensities demoDays,
        c.intensity = specIntensity c.totals.cost (costMax demoDays))
    ∧ (calculateIntensities demoDays).map (fun c => c.intensity) = [4, 2, 4] := by
  have h0 : ∀ c ∈ demoDays, c.intensity = 0 := by
    intro c hc
    simp only [demoDays, List.mem_cons, List.not_mem_nil, or_false] at hc
    rcases hc with rfl | rfl | rfl <;> rfl
  have hm : costMax demoDays = 4 := by
    rw [costMax, demoDays]
    simp only [List.foldl_cons, List.foldl_nil]
    norm_num [max_def]
  refine ⟨h0, intensity_assignment.2.2.1 demoDays h0, ?_⟩
  rw [intensity_assignment.2.1 demoDays (by rw [hm]; norm_num), hm]
  rw [demoDays]
  simp only [List.map_cons, List.map_nil]
  norm_num [ratioIntensity]

/-! ## C5: order-independence of aggregation -/

lemma addBreakdown_assoc (a b c : TokenBreakdown) :
    addBreakdown (addBreakdown a b) c = addBreakdown a (addBreakdown b c) := by
  ext <;> simp [addBreakdown] <;> ring

lemma addBreakdown_comm (a b : TokenBreakdown) :
    addBreakdown a b = addBreakdown b a := by
  ext <;> simp [addBreakdown] <;> ring

lemma addBreakdown_right_comm (a b c : TokenBreakdown) :
    addBreakdown (addBreakdown a b) c = addBreakdown (addBreakdown a c) b := by
  ext <;> simp [addBreakdown] <;> ring

lemma addBreakdown_zero_left (a : TokenBreakdown) :
    addBreakdown zeroBreakdown a = a := by
  ext <;> simp [addBreakdown, zeroBreakdown]

lemma addBreakdown_zero_right (a : TokenBreakdown) :
    addBreakdown a zeroBreakdown = a := by
  ext <;> simp [addBreakdown, zeroBreakdown]

lemma merge_assoc (a b c : DayAccumulator) :
    (a.merge b).merge c = a.merge (b.merge c) := by
  ext1
  · simp [DayAccumulator.merge]
    refine ⟨by ring, by ring, by ring⟩
  · simp [DayAccumulator.merge, addBreakdown_assoc]
  · funext k
    simp only [DayAccumulator.merge]
    cases hc : c.sources k <;> cases hb : b.sources k <;> cases ha : a.sources k <;>
      simp [bumpContribution, addBreakdown_assoc, addBreakdown_zero_left] <;>
      and_intros <;>
      first
        | rfl
        | ring1
        | (ext <;> simp [addBreakdown] <;> ring)

lemma numOfAcc_merge_comm (a b : DayAccumulator) :
    numOfAcc (a.merge b) = numOfAcc (b.merge a) := by
  ext1
  · simp [numOfAcc, DayAccumulator.merge]
    and_intros <;> ring
  · simp only [numOfAcc, DayAccumulator.merge]
    exact addBreakdown_comm _ _
  · funext k
    simp only [numOfAcc, DayAccumulator.merge]
    cases ha : a.sources k <;> cases hb : b.sources k <;>
      simp [numOfContribution, bumpContribution, addBreakdown_zero_left] <;>
      and_intros <;>
      first
        | rfl
        | ring1
        | exact addBreakdown_comm _ _
        | (ext <;> simp [addBreakdown] <;> ring)

lemma merge_empty_right (a : DayAccumulator) : a.merge emptyDayAccumulator = a := by
  ext1
  · simp [DayAccumulator.merge, emptyDayAccumulator]
  · simp [DayAccumulator.merge, emptyDayAccumulator, addBreakdown_zero_right]
  · funext k
    simp [DayAccumulator.merge, emptyDayAccumulator]

lemma merge_addMessage (x y : DayAccumulator) (msg : UnifiedMessage) :
    (x.merge y).addMessage msg = x.merge (y.addMessage msg) := by
  ext1
  · simp [DayAccumulator.merge, DayAccumulator.addMessage]
    and_intros <;> ring
  · simp only [DayAccumulator.merge, DayAccumulator.addMessage]
    exact (addBreakdown_assoc _ _ _)
  · funext k
    by_cases hk : k = sourceKey msg
    · subst hk
      cases hx : x.sources (sourceKey msg) <;> cases hy : y.sources (sourceKey msg) <;>
        simp [DayAccumulator.merge, DayAccumulator.addMessage, hx, hy, bumpContribution,
          freshContribution, addBreakdown_assoc, addBreakdown_zero_left] <;>
        and_intros <;>
        first
          | rfl
          | ring1
          | (ext <;> simp [addBreakdown] <;> ring)
    · simp [DayAccumulator.merge, DayAccumulator.addMessage, hk]

lemma mergeDailyMaps_empty (A : DailyMap) : mergeDailyMaps A emptyDailyMap = A := by
  funext d
  simp [mergeDailyMaps, emptyDailyMap]

lemma mergeDailyMaps_foldMessage (A B : DailyMap) (msg : UnifiedMessage) :
    mergeDailyMaps A (foldMessage B msg) = foldMessage (mergeDailyMaps A B) msg := by
  funext d
  by_cases hd : d = msg.date
  · subst hd
    cases hB : B msg.date with
    | some bd =>
      simp [mergeDailyMaps, foldMessage, hB, merge_addMessage]
    | none =>
      simp only [mergeDailyMaps, foldMessage, hB]
      simp only [if_true, eq_self_iff_true, Option.getD_none, Option.getD_some]
      rw [← merge_addMessage, merge_empty_right]
  · simp [mergeDailyMaps, foldMessage, hd]

lemma mergeDailyMaps_foldl (msgs : List UnifiedMessage) (A B : DailyMap) :
    mergeDailyMaps A (msgs.foldl foldMessage B) =
      msgs.foldl foldMessage (mergeDailyMaps A B) := by
  induction msgs generalizing B with
  | nil => rfl
  | cons m rest ih =>
    simp only [List.foldl_cons]
    rw [ih, mergeDailyMaps_foldMessage]

lemma aggregateFold_append (l1 l2 : List UnifiedMessage) :
    aggregateFold (l1 ++ l2) =
      mergeDailyMaps (aggregateFold l1) (aggregateFold l2) := by
  rw [aggregateFold, List.foldl_append, aggregateFold, aggregateFold,
    mergeDailyMaps_foldl, mergeDailyMaps_empty]

lemma numOfAcc_addMessage (a : DayAccumulator) (msg : UnifiedMessage) :
    numOfAcc (a.addMessage msg) = numAddMessage (numOfAcc a) msg := by
  ext1
  · rfl
  · rfl
  · funext k
    by_cases hk : k = sourceKey msg
    · subst hk
      cases ha : a.sources (sourceKey msg) <;>
        simp [DayAccumulator.addMessage, numAddMessage, numOfAcc, numOfContribution,
          ha, freshContribution]
    · simp [DayAccumulator.addMessage, numAddMessage, numOfAcc, hk]

lemma numOfMap_foldMessage (m : DailyMap) (msg : UnifiedMessage) :
    numOfMap (foldMessage m msg) = numFoldMessage (numOfMap m) msg := by
  funext d
  by_cases hd : d = msg.date
  · subst hd
    cases hm : m msg.date <;>
      simp [numOfMap, foldMessage, numFoldMessage, hm, numOfAcc_addMessage,
        show numOfAcc emptyDayAccumulator = numEmptyAcc from rfl]
  · simp [numOfMap, foldMessage, numFoldMessage, hd]

lemma numOfMap_foldl (msgs : List UnifiedMessage) (m : DailyMap) :
    numOfMap (msgs.foldl foldMessage m) = msgs.foldl numFoldMessage (numOfMap m) := by
  induction msgs generalizing m with
  | nil => rfl
  | cons x rest ih =>
    simp only [List.foldl_cons]
    rw [ih, numOfMap_foldMessage]

lemma numAddMessage_comm (acc : NumDayAcc) (m1 m2 : UnifiedMessage) :
    numAddMessage (numAddMessage acc m1) m2 = numAddMessage (numAddMessage acc m2) m1 := by
  ext1
  · simp [numAddMessage]
    and_intros <;> ring
  · simp only [numAddMessage]
    ext <;> simp [addBreakdown] <;> ring
  · funext k
    by_cases h12 : sourceKey m1 = sourceKey m2
    · by_cases hk : k = sourceKey m2
      · subst hk
        simp [numAddMessage, h12]
        and_intros <;>
        first
          | ring1
          | exact addBreakdown_right_comm _ _ _
          | (ext <;> simp [addBreakdown] <;> ring)
      · have hk1 : ¬(k = sourceKey m1) := fun hh => hk (hh.trans h12)
        simp [numAddMessage, hk, hk1]
    · by_cases ha : k = sourceKey m1 <;> by_cases hb : k = sourceKey m2
      · exact absurd (ha.symm.trans hb) h12
      · subst ha
        simp [numAddMessage, hb, h12, Ne.symm h12]
      · subst hb
        simp [numAddMessage, ha, h12, Ne.symm h12]
      · simp [numAddMessage, ha, hb]

lemma numFoldMessage_comm (M : NumDailyMap) (m1 m2 : UnifiedMessage) :
    numFoldMessage (numFoldMessage M m1) m2 = numFoldMessage (numFoldMessage M m2) m1 := by
  funext d
  by_cases h12 : m1.date = m2.date
  · by_cases hd : d = m2.date
    · subst hd
      simp [numFoldMessage, h12, numAddMessage_comm]
    · have hd1 : ¬(d = m1.date) := fun hh => hd (hh.trans h12)
      simp [numFoldMessage, hd, hd1]
  · by_cases ha : d = m1.date <;> by_cases hb : d = m2.date
    · exact absurd (ha.symm.trans hb) h12
    · subst ha
      simp [numFoldMessage, hb, h12, Ne.symm h12]
    · subst hb
      simp [numFoldMessage, ha, h12, Ne.symm h12]
    · simp [numFoldMessage, ha, hb]

/-- C5 counterexample: two accumulators whose colliding `source:model`
entries carry different provider ids merge to different values under the
two orders — `DayAccumulator::merge` is not commutative. -/
theorem merge_not_commutative_counterexample :
    ((demoAccP1.merge demoAccP2).sources "s:m").map (fun sc => sc.provider_id) =
        some "p1"
    ∧ ((demoAccP2.merge demoAccP1).sources "s:m").map (fun sc => sc.provider_id) =
        some "p2"
    ∧ demoAccP1.merge demoAccP2 ≠ demoAccP2.merge demoAccP1 := by
  refine ⟨rfl, rfl, ?_⟩
  intro hcontra
  have h1 : ((demoAccP1.merge demoAccP2).sources "s:m").map (fun sc => sc.provider_id) =
      some "p1" := rfl
  rw [hcontra] at h1
  have h2 : ((demoAccP2.merge demoAccP1).sources "s:m").map (fun sc => sc.provider_id) =
      some "p2" := rfl
  rw [h1] at h2
  exact absurd h2 (by decide)

/-- C5 amended: the per-day merge is associative, and commutative in all
numeric content (totals, token breakdown and the numeric fields of every
sub-map entry) — only the metadata strings of a sub-map entry come from
the operand merged first. Consequently workers' partitions merge to
exactly the sequential fold, and any permutation of a fixed record set
yields the same numeric daily map (hence identical DailyContribution
totals). -/
theorem aggregation_merge_amended :
    (∀ a b c : DayAccumulator, (a.merge b).merge c = a.merge (b.merge c))
    ∧ (∀ a b : DayAccumulator, numOfAcc (a.merge b) = numOfAcc (b.merge a))
    ∧ (∀ l1 l2 : List UnifiedMessage,
        aggregateFold (l1 ++ l2) =
          mergeDailyMaps (aggregateFold l1) (aggregateFold l2))
    ∧ (∀ l1 l2 : List UnifiedMessage, l1.Perm l2 →
        numOfMap (aggregateFold l1) = numOfMap (aggregateFold l2)) := by
  refine ⟨merge_assoc, numOfAcc_merge_comm, aggregateFold_append, ?_⟩
  intro l1 l2 p
  rw [aggregateFold, aggregateFold, numOfMap_foldl, numOfMap_foldl]
  exact p.foldl_eq' (fun x _ y _ z => numFoldMessage_comm z x y) _

/-- Witness for C5: swapping the two colliding messages leaves the
numeric daily map unchanged. -/
theorem aggregation_merge_amended_witness :
    ([demoMsgP1, demoMsgP2].Perm [demoMsgP2, demoMsgP1])
    ∧ numOfMap (aggregateFold [demoMsgP1, demoMsgP2]) =
        numOfMap (aggregateFold [demoMsgP2, demoMsgP1]) :=
  ⟨List.Perm.swap demoMsgP2 demoMsgP1 [],
   aggregation_merge_amended.2.2.2 [demoMsgP1, demoMsgP2] [demoMsgP2, demoMsgP1]
     (List.Perm.swap demoMsgP2 demoMsgP1 [])⟩

end Tokscale
